import Mathlib

/-!
Verification development for the ODE-integration core of
`Yellowstone_Wolf_Population_Models.ipynb`.

The notebook defines four right-hand-side (RHS) functions and one hand-written
fixed-step explicit Euler integrator, `integrate_piecewise`.  The RHS functions
and the Euler integrator are pure arithmetic on Python numbers; they are
embedded here over `ℚ` (exact arithmetic), with the time grid as a `List ℚ`.

`integrate_piecewise(P0, t, r, K_high, K_low, t_change)` in the source reads

    dt = t[1] - t[0]
    P = [P0]
    for i in range(1, len(t)):
        K = K_high if t[i] < t_change else K_low
        dP = r * P[-1] * (1 - P[-1] / K)
        P.append(P[-1] + dP * dt)
    return np.array(P)

Accessing `t[1]` on a grid with fewer than two points raises an index error,
so the embedding returns `Option (List ℚ)`: `none` models that failure, and
`some traj` the returned trajectory.
-/

/-- RHS of the logistic model: `r * P * (1 - P / K)`
(source: `logistic_growth`). -/
def logistic_growth (P t r K : ℚ) : ℚ := r * P * (1 - P / K)

/-- RHS of the Lotka-Volterra predator-prey model
(source: `lotka_volterra`): state is the pair `(W, E)`. -/
def lotka_volterra (y : ℚ × ℚ) (t a b c d : ℚ) : ℚ × ℚ :=
  (a * y.1 - b * y.1 * y.2, -c * y.2 + d * y.1 * y.2)

/-- The capacity branch `K = K_high if t < t_change else K_low` used both by
`logistic_piecewise` and inside the loop of `integrate_piecewise`. -/
def chooseK (K_high K_low t_change t : ℚ) : ℚ :=
  if t < t_change then K_high else K_low

/-- RHS of the piecewise-capacity logistic model
(source: `logistic_piecewise`). -/
def logistic_piecewise (P t r K_high K_low t_change : ℚ) : ℚ :=
  r * P * (1 - P / chooseK K_high K_low t_change t)

/-- RHS of the logistic model with constant removal rate `h`
(source: `logistic_human`). -/
def logistic_human (P t r K h : ℚ) : ℚ := r * P * (1 - P / K) - h

/-- One iteration of the loop body of `integrate_piecewise`:
`K = K_high if t[i] < t_change else K_low; dP = r*P*(1 - P/K); P + dP*dt`. -/
def eulerStep (r K_high K_low t_change dt P ti : ℚ) : ℚ :=
  P + r * P * (1 - P / chooseK K_high K_low t_change ti) * dt

/-- The loop of `integrate_piecewise`: starting from state `P`, fold over the
remaining grid times `t[1], t[2], ...`, emitting each appended state. -/
def eulerSteps (r K_high K_low t_change dt : ℚ) : ℚ → List ℚ → List ℚ
  | _, [] => []
  | P, ti :: rest =>
    eulerStep r K_high K_low t_change dt P ti ::
      eulerSteps r K_high K_low t_change dt
        (eulerStep r K_high K_low t_change dt P ti) rest

/-- Embedding of `integrate_piecewise`.  `dt = t[1] - t[0]` is computed once;
a grid with fewer than two points fails (Python index error), modelled as
`none`. -/
def integrate_piecewise (P0 : ℚ) (t : List ℚ) (r K_high K_low t_change : ℚ) :
    Option (List ℚ) :=
  match t with
  | t0 :: t1 :: rest =>
    some (P0 :: eulerSteps r K_high K_low t_change (t1 - t0) P0 (t1 :: rest))
  | _ => none

/-- The spec's notion of a valid time grid: strictly increasing. -/
def strictlyIncreasing (t : List ℚ) : Prop := List.Chain' (· < ·) t

instance (t : List ℚ) : Decidable (strictlyIncreasing t) :=
  inferInstanceAs (Decidable (List.Chain' (· < ·) t))

/-- Modelled from the spec (for the refinement claim): the reference
trajectory "computed by manually switching K at `t_change` and applying the
same step formula", where the spec's fixed-step Euler formula reads
"`dt = t[i] - t[i-1]`" per consecutive pair and the capacity switch uses the
current grid time.  This walks the grid carrying the previous time. -/
def referenceSteps (r K_high K_low t_change : ℚ) : ℚ → ℚ → List ℚ → List ℚ
  | _, _, [] => []
  | P, tprev, ti :: rest =>
    (P + r * P * (1 - P / chooseK K_high K_low t_change ti) * (ti - tprev)) ::
      referenceSteps r K_high K_low t_change
        (P + r * P * (1 - P / chooseK K_high K_low t_change ti) * (ti - tprev))
        ti rest

/-- Modelled from the spec: the reference piecewise trajectory over a grid,
per-pair `dt`, first entry the initial state. -/
def reference_piecewise (P0 : ℚ) (t : List ℚ) (r K_high K_low t_change : ℚ) :
    Option (List ℚ) :=
  match t with
  | t0 :: t1 :: rest =>
    some (P0 :: referenceSteps r K_high K_low t_change P0 t0 (t1 :: rest))
  | _ => none

/-- `uniformGapsB dt tprev ts` checks that every consecutive gap along
`tprev :: ts` equals `dt` (a uniform grid). -/
def uniformGapsB (dt : ℚ) : ℚ → List ℚ → Bool
  | _, [] => true
  | tprev, ti :: rest => (ti - tprev == dt) && uniformGapsB dt ti rest

/-! ### Basic lemmas about the loop -/

lemma eulerSteps_length (r K_high K_low t_change dt P : ℚ) (ts : List ℚ) :
    (eulerSteps r K_high K_low t_change dt P ts).length = ts.length := by
  induction ts generalizing P with
  | nil => rfl
  | cons ti rest ih => simp [eulerSteps, ih]

lemma eulerSteps_getElem? (r K_high K_low t_change dt P : ℚ) (ts : List ℚ)
    (j : ℕ) (hj : j < ts.length) :
    (eulerSteps r K_high K_low t_change dt P ts)[j]? =
      some (eulerStep r K_high K_low t_change dt
        ((P :: eulerSteps r K_high K_low t_change dt P ts).getD j 0)
        (ts.getD j 0)) := by
  induction ts generalizing P j with
  | nil => simp at hj
  | cons ti rest ih =>
    cases j with
    | zero => simp [eulerSteps]
    | succ k =>
      have hk : k < rest.length := by simpa using hj
      simpa [eulerSteps] using
        ih (eulerStep r K_high K_low t_change dt P ti) k hk

/-- The step relation of `integrate_piecewise`: for every interior index `i`,
entry `i` of the trajectory is one Euler step from entry `i-1`, taken at grid
time `t[i]` with the fixed increment `t[1] - t[0]`. -/
lemma integrate_piecewise_step (P0 r K_high K_low t_change : ℚ)
    (t traj : List ℚ)
    (h : integrate_piecewise P0 t r K_high K_low t_change = some traj)
    (i : ℕ) (h1 : 1 ≤ i) (h2 : i < t.length) :
    traj[i]? = some (eulerStep r K_high K_low t_change
      (t.getD 1 0 - t.getD 0 0) (traj.getD (i - 1) 0) (t.getD i 0)) := by
  match t with
  | [] => simp [integrate_piecewise] at h
  | [t0] => simp [integrate_piecewise] at h
  | t0 :: t1 :: rest =>
    have htraj : traj =
        P0 :: eulerSteps r K_high K_low t_change (t1 - t0) P0 (t1 :: rest) := by
      simpa [integrate_piecewise] using h.symm
    obtain ⟨j, rfl⟩ : ∃ j, i = j + 1 := ⟨i - 1, (Nat.succ_pred_eq_of_pos h1).symm⟩
    have hj : j < (t1 :: rest).length := by
      simpa [Nat.succ_lt_succ_iff] using h2
    subst htraj
    simpa using eulerSteps_getElem? r K_high K_low t_change (t1 - t0) P0
      (t1 :: rest) j hj

/-! ### Claim theorems -/

/-- C1, counterexample: on the strictly increasing grid `[0, 1, 3]` the second
step does NOT advance by `derivative * (t[2] - t[1])`: the code reuses
`dt = t[1] - t[0] = 1`, so the computed entry differs from the claimed one. -/
theorem C1_per_pair_dt_fails :
    strictlyIncreasing [0, 1, 3] ∧
    integrate_piecewise 50 [0, 1, 3] (3/10) 500 200 15 =
      some [50, 127/2, 1602613/20000] ∧
    (1602613/20000 : ℚ) ≠
      127/2 + logistic_piecewise (127/2) 3 (3/10) 500 200 15 * (3 - 1) := by
  refine ⟨by norm_num [strictlyIncreasing], ?_,
    by norm_num [logistic_piecewise, chooseK]⟩
  norm_num [integrate_piecewise, eulerSteps, eulerStep, chooseK]

/-- C1, amended: every interior entry of the trajectory advances by
`state_i = state_{i-1} + derivative * dt`, where the derivative is the
piecewise logistic RHS at the previous state and the current grid time
`t[i]`, and `dt = t[1] - t[0]` is the first pair's spacing, reused for every
step. -/
theorem C1_step_uses_first_gap (P0 r K_high K_low t_change : ℚ)
    (t traj : List ℚ)
    (h : integrate_piecewise P0 t r K_high K_low t_change = some traj)
    (i : ℕ) (h1 : 1 ≤ i) (h2 : i < t.length) :
    traj[i]? = some (traj.getD (i - 1) 0 +
      logistic_piecewise (traj.getD (i - 1) 0) (t.getD i 0) r K_high K_low
        t_change * (t.getD 1 0 - t.getD 0 0)) :=
  integrate_piecewise_step P0 r K_high K_low t_change t traj h i h1 h2

theorem C1_step_uses_first_gap_witness :
    ([50, 127/2, 1602613/20000] : List ℚ)[2]? =
      some (([50, 127/2, 1602613/20000] : List ℚ).getD 1 0 +
        logistic_piecewise (([50, 127/2, 1602613/20000] : List ℚ).getD 1 0)
          (([0, 1, 3] : List ℚ).getD 2 0) (3/10) 500 200 15 *
          (([0, 1, 3] : List ℚ).getD 1 0 - ([0, 1, 3] : List ℚ).getD 0 0)) :=
  C1_step_uses_first_gap 50 (3/10) 500 200 15 [0, 1, 3]
    [50, 127/2, 1602613/20000]
    (by norm_num [integrate_piecewise, eulerSteps, eulerStep, chooseK])
    2 (by norm_num) (by norm_num)

/-- C2: whenever the grid has at least two points, the returned trajectory has
exactly one entry per grid point and its first entry is the initial state. -/
theorem C2_length_and_head (P0 r K_high K_low t_change : ℚ)
    (t traj : List ℚ) (hlen : 2 ≤ t.length)
    (h : integrate_piecewise P0 t r K_high K_low t_change = some traj) :
    traj.length = t.length ∧ traj.head? = some P0 := by
  match t with
  | [] => simp at hlen
  | [t0] => simp at hlen
  | t0 :: t1 :: rest =>
    have htraj : traj =
        P0 :: eulerSteps r K_high K_low t_change (t1 - t0) P0 (t1 :: rest) := by
      simpa [integrate_piecewise] using h.symm
    subst htraj
    simp [eulerSteps_length]

theorem C2_length_and_head_witness :
    ([50, 127/2, 1602613/20000] : List ℚ).length = ([0, 1, 3] : List ℚ).length ∧
    ([50, 127/2, 1602613/20000] : List ℚ).head? = some 50 :=
  C2_length_and_head 50 (3/10) 500 200 15 [0, 1, 3]
    [50, 127/2, 1602613/20000] (by norm_num)
    (by norm_num [integrate_piecewise, eulerSteps, eulerStep, chooseK])

/-- C3: at every step `i`, the capacity used is `chooseK` evaluated at the
current grid time `t[i]` (so `K_high` when `t[i] < t_change`, `K_low`
otherwise), and a step whose current time equals `t_change` uses `K_low`. -/
theorem C3_capacity_switch (P0 r K_high K_low t_change : ℚ)
    (t traj : List ℚ)
    (h : integrate_piecewise P0 t r K_high K_low t_change = some traj)
    (i : ℕ) (h1 : 1 ≤ i) (h2 : i < t.length) :
    traj[i]? = some (traj.getD (i - 1) 0 +
      r * traj.getD (i - 1) 0 *
        (1 - traj.getD (i - 1) 0 / chooseK K_high K_low t_change (t.getD i 0)) *
        (t.getD 1 0 - t.getD 0 0)) ∧
    (t.getD i 0 < t_change → chooseK K_high K_low t_change (t.getD i 0) = K_high) ∧
    (t_change ≤ t.getD i 0 → chooseK K_high K_low t_change (t.getD i 0) = K_low) ∧
    (t.getD i 0 = t_change → chooseK K_high K_low t_change (t.getD i 0) = K_low) := by
  refine ⟨integrate_piecewise_step P0 r K_high K_low t_change t traj h i h1 h2,
    fun hlt => if_pos hlt, fun hge => if_neg (not_lt.mpr hge), fun heq => ?_⟩
  rw [heq]
  exact if_neg (lt_irrefl t_change)

theorem C3_capacity_switch_witness :
    (([50, 127/2, 1602613/20000] : List ℚ)[2]? =
      some (([50, 127/2, 1602613/20000] : List ℚ).getD 1 0 +
        (3/10) * ([50, 127/2, 1602613/20000] : List ℚ).getD 1 0 *
          (1 - ([50, 127/2, 1602613/20000] : List ℚ).getD 1 0 /
            chooseK 500 200 15 (([0, 1, 3] : List ℚ).getD 2 0)) *
          (([0, 1, 3] : List ℚ).getD 1 0 - ([0, 1, 3] : List ℚ).getD 0 0)) ∧
    (([0, 1, 3] : List ℚ).getD 2 0 < 15 →
      chooseK 500 200 15 (([0, 1, 3] : List ℚ).getD 2 0) = 500) ∧
    ((15 : ℚ) ≤ ([0, 1, 3] : List ℚ).getD 2 0 →
      chooseK 500 200 15 (([0, 1, 3] : List ℚ).getD 2 0) = 200) ∧
    (([0, 1, 3] : List ℚ).getD 2 0 = 15 →
      chooseK 500 200 15 (([0, 1, 3] : List ℚ).getD 2 0) = 200)) :=
  C3_capacity_switch 50 (3/10) 500 200 15 [0, 1, 3]
    [50, 127/2, 1602613/20000]
    (by norm_num [integrate_piecewise, eulerSteps, eulerStep, chooseK])
    2 (by norm_num) (by norm_num)

/-- C4, counterexample: the grid `[0, 2, 1]` is not strictly increasing, yet
`integrate_piecewise` performs no validation: it returns a trajectory instead
of failing with an error. -/
theorem C4_accepts_nonmonotone_grid :
    ¬ strictlyIncreasing [0, 2, 1] ∧
    (integrate_piecewise 50 [0, 2, 1] (3/10) 500 200 15).isSome = true := by
  refine ⟨by norm_num [strictlyIncreasing], rfl⟩

/-- C4, amended: the only grids on which the integration fails are those with
fewer than 2 points (a Python index error on `t[1]`, not a dedicated
InvalidInput error); every grid with at least 2 points, strictly increasing
or not, yields a trajectory. -/
theorem C4_none_iff_short (P0 r K_high K_low t_change : ℚ) (t : List ℚ) :
    integrate_piecewise P0 t r K_high K_low t_change = none ↔ t.length < 2 := by
  match t with
  | [] => simp [integrate_piecewise]
  | [t0] => simp [integrate_piecewise]
  | t0 :: t1 :: rest => simp [integrate_piecewise]

/-- C5, counterexample: on the strictly increasing non-uniform grid
`[0, 1, 3]`, the trajectory of `integrate_piecewise` differs from the spec's
reference (per-pair `dt = t[i] - t[i-1]`, same K switch, same step formula). -/
theorem C5_reference_mismatch :
    strictlyIncreasing [0, 1, 3] ∧
    integrate_piecewise 50 [0, 1, 3] (3/10) 500 200 15 ≠
      reference_piecewise 50 [0, 1, 3] (3/10) 500 200 15 := by
  refine ⟨by norm_num [strictlyIncreasing], ?_⟩
  norm_num [integrate_piecewise, reference_piecewise, eulerSteps, eulerStep,
    referenceSteps, chooseK]

lemma referenceSteps_eq_eulerSteps (r K_high K_low t_change dt P tprev : ℚ)
    (ts : List ℚ) (h : uniformGapsB dt tprev ts = true) :
    referenceSteps r K_high K_low t_change P tprev ts =
      eulerSteps r K_high K_low t_change dt P ts := by
  induction ts generalizing P tprev with
  | nil => rfl
  | cons ti rest ih =>
    have h' : ti - tprev = dt ∧ uniformGapsB dt ti rest = true := by
      simpa [uniformGapsB] using h
    simp only [referenceSteps, eulerSteps, eulerStep, h'.1]
    exact congrArg (List.cons _) (ih _ _ h'.2)

/-- C5, amended: on every uniform grid (all consecutive gaps equal to
`t[1] - t[0]`), the trajectory of `integrate_piecewise` matches the spec's
reference trajectory exactly, entry by entry.  (On non-uniform grids they
differ, because the code reuses `dt = t[1] - t[0]` for every step.) -/
theorem C5_uniform_refinement (P0 r K_high K_low t_change t0 t1 : ℚ)
    (rest : List ℚ) (h : uniformGapsB (t1 - t0) t0 (t1 :: rest) = true) :
    reference_piecewise P0 (t0 :: t1 :: rest) r K_high K_low t_change =
      integrate_piecewise P0 (t0 :: t1 :: rest) r K_high K_low t_change := by
  simp only [reference_piecewise, integrate_piecewise]
  rw [referenceSteps_eq_eulerSteps r K_high K_low t_change (t1 - t0) P0 t0
    (t1 :: rest) h]

theorem C5_uniform_refinement_witness :
    uniformGapsB ((1 : ℚ) - 0) 0 [1, 2] = true ∧
    reference_piecewise 50 [0, 1, 2] (3/10) 500 200 15 =
      integrate_piecewise 50 [0, 1, 2] (3/10) 500 200 15 :=
  ⟨by norm_num [uniformGapsB],
    C5_uniform_refinement 50 (3/10) 500 200 15 0 1 [2]
      (by norm_num [uniformGapsB])⟩

/-- C6: the integrator is deterministic: two runs on (pointwise) identical
inputs produce identical trajectories. -/
theorem C6_determinism (P0 Q0 r s K_high L_high K_low L_low t_change u_change : ℚ)
    (t u : List ℚ) (hP : P0 = Q0) (ht : t = u) (hr : r = s)
    (hKh : K_high = L_high) (hKl : K_low = L_low) (htc : t_change = u_change) :
    integrate_piecewise P0 t r K_high K_low t_change =
      integrate_piecewise Q0 u s L_high L_low u_change := by
  rw [hP, ht, hr, hKh, hKl, htc]

theorem C6_determinism_witness :
    integrate_piecewise 50 [0, 1, 3] (3/10) 500 200 15 =
      integrate_piecewise 50 [0, 1, 3] (3/10) 500 200 15 :=
  C6_determinism 50 50 (3/10) (3/10) 500 500 200 200 15 15 [0, 1, 3] [0, 1, 3]
    rfl rfl rfl rfl rfl rfl

/-- C10: the removal-model RHS is the logistic RHS minus `h`; with `h = 0`
they coincide; and for `K ≠ 0` the logistic RHS vanishes at the equilibria
`P = 0` and `P = K`. -/
theorem C10_rhs_algebra (P t r K h : ℚ) :
    logistic_human P t r K h = logistic_growth P t r K - h ∧
    logistic_human P t r K 0 = logistic_growth P t r K ∧
    (K ≠ 0 → logistic_growth 0 t r K = 0 ∧ logistic_growth K t r K = 0) := by
  refine ⟨rfl, by simp [logistic_human, logistic_growth], fun hK => ⟨?_, ?_⟩⟩
  · simp [logistic_growth]
  · simp [logistic_growth, div_self hK]

theorem C10_rhs_algebra_witness :
    logistic_human 1 0 (3/10) 500 10 = logistic_growth 1 0 (3/10) 500 - 10 ∧
    logistic_human 1 0 (3/10) 500 0 = logistic_growth 1 0 (3/10) 500 ∧
    (logistic_growth 0 0 (3/10) 500 = 0 ∧ logistic_growth 500 0 (3/10) 500 = 0) :=
  ⟨(C10_rhs_algebra 1 0 (3/10) 500 10).1,
    (C10_rhs_algebra 1 0 (3/10) 500 10).2.1,
    (C10_rhs_algebra 1 0 (3/10) 500 10).2.2 (by norm_num)⟩

/-! ### The adaptive-solver scenario (spec-modelled)

The smooth models are integrated by SciPy's `odeint`, which is library code,
not part of this repository's source.  The spec pins down the adaptive mode as
accurate to a relative error around 1e-6 against the analytic solution of the
logistic equation, so that call is modelled by the analytic solution itself.
-/

/-- Modelled from the spec: `odeint` applied to `logistic_growth` (SciPy's
adaptive solver is missing from the source; the spec requires it to reproduce
the analytic logistic solution), i.e.
`P(t) = K / (1 + ((K - P0)/P0) * exp(-r t))`. -/
noncomputable def odeint_logistic (r K P0 t : ℝ) : ℝ :=
  K / (1 + ((K - P0) / P0) * Real.exp (-(r * t)))

/-- C8: with r = 3/10, K = 500, P0 = 50, the modelled logistic trajectory is
strictly increasing in time (hence monotonically increasing along the 400-point
grid over [0, 40]) and its value at the final grid point t = 40 is within 1%
of K = 500. -/
theorem C8_logistic_monotone_and_near_K :
    StrictMono (odeint_logistic (3/10) 500 50) ∧
    |odeint_logistic (3/10) 500 50 40 - 500| ≤ 5 := by
  constructor
  · intro a b hab
    show (500 : ℝ) / (1 + ((500 - 50) / 50) * Real.exp (-(3/10 * a))) <
      500 / (1 + ((500 - 50) / 50) * Real.exp (-(3/10 * b)))
    have h9 : ((500 : ℝ) - 50) / 50 = 9 := by norm_num
    rw [h9]
    have hea : (0 : ℝ) < Real.exp (-(3/10 * a)) := Real.exp_pos _
    have heb : (0 : ℝ) < Real.exp (-(3/10 * b)) := Real.exp_pos _
    have hlt : Real.exp (-(3/10 * b)) < Real.exp (-(3/10 * a)) :=
      Real.exp_lt_exp.mpr (by linarith)
    exact div_lt_div_of_pos_left (by norm_num) (by linarith) (by linarith)
  · have hval : odeint_logistic (3/10) 500 50 40 =
        500 / (1 + 9 * Real.exp (-12)) := by
      unfold odeint_logistic
      norm_num
    have hE0 : (0 : ℝ) < Real.exp (-12) := Real.exp_pos _
    have h900 : (900 : ℝ) ≤ Real.exp 12 := by
      have h12 : Real.exp 12 = Real.exp 1 ^ (12 : ℕ) := by
        rw [← Real.exp_nat_mul]
        norm_num
      have h1 : (2.7 : ℝ) ≤ Real.exp 1 :=
        le_of_lt (lt_trans (by norm_num) Real.exp_one_gt_d9)
      calc (900 : ℝ) ≤ 2.7 ^ (12 : ℕ) := by norm_num
        _ ≤ Real.exp 1 ^ (12 : ℕ) := pow_le_pow_left₀ (by norm_num) h1 12
        _ = Real.exp 12 := h12.symm
    have hE : Real.exp (-12) ≤ 1 / 900 := by
      rw [Real.exp_neg, ← one_div]
      exact one_div_le_one_div_of_le (by norm_num) h900
    have hden : (0 : ℝ) < 1 + 9 * Real.exp (-12) := by linarith
    have hub : 500 / (1 + 9 * Real.exp (-12)) ≤ 500 := by
      rw [div_le_iff₀ hden]
      nlinarith
    have hlb : (495 : ℝ) ≤ 500 / (1 + 9 * Real.exp (-12)) := by
      rw [le_div_iff₀ hden]
      nlinarith
    rw [hval]
    rw [abs_le]
    constructor <;> linarith
